import Mathlib

/-!
Shallow embedding of `netcdfpp.hpp` (namespace `netcdf4`), the object-oriented
NetCDF4 access layer.  Pure wrapper logic (error handling, mode assertions,
the type-to-primitive map, catalog construction and mutation) is translated
directly from the source.  The underlying NetCDF C library is the external
collaborator and is modelled from the spec's boundary contract (§6): inquiry,
definition, hyperslab data transfer and mode primitives, with injectable error
codes so that the wrapper's failure paths can be examined.
-/

namespace Netcdfhpp

/-! ## Error codes from `netcdf.h` used by the source -/

def NC_NOERR : Int := 0
def NC_EBADID : Int := -33
def NC_ENOTINDEFINE : Int := -38
def NC_EINDEFINE : Int := -39
def NC_EBADDIM : Int := -46
def NC_ENOTVAR : Int := -49

/-- Atomic type tags (`enum class Type` in the source).  The C++ enum is
backed by the `NC_*` integer codes (`NC_LONG` aliases `NC_INT`), so the tag is
embedded as its integer code. -/
abbrev Ty := Int

def tyNotAType : Ty := 0
def tyChar : Ty := 2
def tyInt : Ty := 4
def tyFloat : Ty := 5
def tyDouble : Ty := 6

/-- Thrown failures.  The source throws `std::runtime_error` everywhere; the
constructor records the throw site (`handle_error` wrapping a store code, the
explicit type-mismatch / undefined-dimension / not-found throws). -/
inductive Err where
  | storeError (code : Int)
  | typeMismatch
  | undefinedDimension
  | notFound
  deriving DecidableEq, Repr

/-- Result of a stateful operation: C++ exceptions do not roll state back, so
the error constructor carries the state at the moment of the throw. -/
inductive NcResult (σ : Type) (α : Type) where
  | ok (a : α) (s : σ)
  | err (e : Err) (s : σ)
  deriving DecidableEq, Repr

/-- Global per-file define/data mode. -/
inductive Mode where
  | define
  | data
  deriving DecidableEq, Repr

/-! ## `detail::handle_error` and the mode assertions (source lines 36-78) -/

/-- `detail::handle_error`: throws iff the code signals an error. -/
def handle_error (code : Int) : Except Err Unit :=
  if code ≠ NC_NOERR then .error (.storeError code) else .ok ()

/-- `detail::assert_write_mode` applied to the result code of `nc_enddef`:
`NC_ENOTINDEFINE` ("already in data mode") is absorbed, anything else goes
through `handle_error`. -/
def assert_write_mode (code : Int) : Except Err Unit :=
  if code ≠ NC_ENOTINDEFINE then handle_error code else .ok ()

/-- `detail::assert_define_mode` applied to the result code of `nc_redef`:
`NC_EINDEFINE` ("already in define mode") is absorbed, anything else goes
through `handle_error`. -/
def assert_define_mode (code : Int) : Except Err Unit :=
  if code ≠ NC_EINDEFINE then handle_error code else .ok ()

/-- Modelled from the spec: the store's "leave define"/"commit definitions"
primitive (`nc_enddef`) succeeds from define mode and reports
"already in data mode" otherwise. -/
def ncEnddef : Mode → Int × Mode
  | .define => (NC_NOERR, .data)
  | .data => (NC_ENOTINDEFINE, .data)

/-- Modelled from the spec: the store's "enter define" primitive (`nc_redef`)
succeeds from data mode and reports "already in define mode" otherwise. -/
def ncRedef : Mode → Int × Mode
  | .data => (NC_NOERR, .define)
  | .define => (NC_EINDEFINE, .define)

/-- Running `assert_write_mode` against the actual primitive always succeeds
and lands in data mode. -/
theorem runEnddef_ok (m : Mode) :
    assert_write_mode (ncEnddef m).1 = .ok () ∧ (ncEnddef m).2 = .data := by
  cases m <;> simp [ncEnddef, assert_write_mode, handle_error, NC_NOERR, NC_ENOTINDEFINE]

/-- Running `assert_define_mode` against the actual primitive always succeeds
and lands in define mode. -/
theorem runRedef_ok (m : Mode) :
    assert_define_mode (ncRedef m).1 = .ok () ∧ (ncRedef m).2 = .define := by
  cases m <;> simp [ncRedef, assert_define_mode, handle_error, NC_NOERR, NC_EINDEFINE]

/-! ## `detail::FileID` (source lines 49-64) -/

/-- `detail::FileID`: the file handle capsule.  The integer id is irrelevant
to the claims; only the `open` flag drives the logic. -/
structure FileID where
  isOpen : Bool
  deriving DecidableEq, Repr

/-- `FileID::close`, parametrized by the result code of the underlying
`nc_close` call.  The returned `Bool` records whether `nc_close` was invoked.
On failure `handle_error` throws before `open = false` is reached. -/
def FileID.close (f : FileID) (closeCode : Int) : NcResult FileID Bool :=
  if f.isOpen then
    match handle_error closeCode with
    | .error e => .err e f
    | .ok _ => .ok true { isOpen := false }
  else
    .ok false f

/-- `FileID::~FileID`: the destructor just calls `close()`; nothing catches
the exception `close` may throw. -/
def FileID.dtor (f : FileID) (closeCode : Int) : NcResult FileID Bool :=
  f.close closeCode

/-- `File::close` delegates to the shared handle (source line 528). -/
def File.close (f : FileID) (closeCode : Int) : NcResult FileID Bool :=
  f.close closeCode

/-! ## `TypeMap` (source lines 168-221) -/

/-- The four supported C++ scalar types (the `TypeMap` specializations). -/
inductive CType where
  | cInt
  | cFloat
  | cDouble
  | cChar
  deriving DecidableEq, Repr

/-- Identifies one primitive of the NetCDF C data-transfer families. -/
inductive COp where
  | put
  | get
  deriving DecidableEq, Repr

/-- Addressing mode of a data-transfer primitive: `var` (whole array),
`vara` (sub-array), `var1` (single value), `vars` (strided). -/
inductive CAddr where
  | whole
  | array
  | one
  | strided
  deriving DecidableEq, Repr

/-- Element type of a data-transfer primitive (`_int`, `_float`, `_double`,
`_schar` suffixes). -/
inductive CElem where
  | eInt
  | eFloat
  | eDouble
  | eSChar
  deriving DecidableEq, Repr

/-- A named primitive such as `nc_put_vara_int`. -/
structure NCFun where
  op : COp
  addr : CAddr
  elem : CElem
  deriving DecidableEq, Repr

/-- One `TypeMap<T>` specialization: the atomic tag plus the eight bound
entry points. -/
structure TypeMapT where
  value : Ty
  write : NCFun
  write_array : NCFun
  write_value : NCFun
  write_strided : NCFun
  read : NCFun
  read_array : NCFun
  read_value : NCFun
  read_strided : NCFun
  deriving DecidableEq, Repr

/-- The four `TypeMap` specializations, transcribed field by field.  Note the
source binds `read` to `nc_put_var_<T>` in all four specializations. -/
def typeMap : CType → TypeMapT
  | .cInt =>
    { value := tyInt
      write := ⟨.put, .whole, .eInt⟩
      write_array := ⟨.put, .array, .eInt⟩
      write_value := ⟨.put, .one, .eInt⟩
      write_strided := ⟨.put, .strided, .eInt⟩
      read := ⟨.put, .whole, .eInt⟩
      read_array := ⟨.get, .array, .eInt⟩
      read_value := ⟨.get, .one, .eInt⟩
      read_strided := ⟨.get, .strided, .eInt⟩ }
  | .cFloat =>
    { value := tyFloat
      write := ⟨.put, .whole, .eFloat⟩
      write_array := ⟨.put, .array, .eFloat⟩
      write_value := ⟨.put, .one, .eFloat⟩
      write_strided := ⟨.put, .strided, .eFloat⟩
      read := ⟨.put, .whole, .eFloat⟩
      read_array := ⟨.get, .array, .eFloat⟩
      read_value := ⟨.get, .one, .eFloat⟩
      read_strided := ⟨.get, .strided, .eFloat⟩ }
  | .cDouble =>
    { value := tyDouble
      write := ⟨.put, .whole, .eDouble⟩
      write_array := ⟨.put, .array, .eDouble⟩
      write_value := ⟨.put, .one, .eDouble⟩
      write_strided := ⟨.put, .strided, .eDouble⟩
      read := ⟨.put, .whole, .eDouble⟩
      read_array := ⟨.get, .array, .eDouble⟩
      read_value := ⟨.get, .one, .eDouble⟩
      read_strided := ⟨.get, .strided, .eDouble⟩ }
  | .cChar =>
    { value := tyChar
      write := ⟨.put, .whole, .eSChar⟩
      write_array := ⟨.put, .array, .eSChar⟩
      write_value := ⟨.put, .one, .eSChar⟩
      write_strided := ⟨.put, .strided, .eSChar⟩
      read := ⟨.put, .whole, .eSChar⟩
      read_array := ⟨.get, .array, .eSChar⟩
      read_value := ⟨.get, .one, .eSChar⟩
      read_strided := ⟨.get, .strided, .eSChar⟩ }

/-! ## Hyperslab data transfer (`Variable::write` / `Variable::read`,
source lines 271-301) -/

/-- Componentwise validity of a hyperslab: same rank as the shape and
`start + count ≤ extent` on every axis. -/
def validSlab : (shape starts counts : List Nat) → Bool
  | [], [], [] => true
  | e :: es, s :: ss, c :: cs => decide (s + c ≤ e) && validSlab es ss cs
  | _, _, _ => false

/-- Whether a (multi-)index lies inside the hyperslab addressed by
`starts`/`counts`. -/
def inSlab : (starts counts idx : List Nat) → Bool
  | [], [], [] => true
  | s :: ss, c :: cs, i :: is' => (decide (s ≤ i) && decide (i < s + c)) && inSlab ss cs is'
  | _, _, _ => false

/-- Componentwise `idx < counts` with matching rank: the local coordinates of
the hyperslab. -/
def withinCounts : (idx counts : List Nat) → Bool
  | [], [] => true
  | i :: is', c :: cs => decide (i < c) && withinCounts is' cs
  | _, _ => false

/-- Modelled from the spec: the store's sub-array write primitive
(`nc_put_vara_<T>`).  Replaces the addressed hyperrectangle of `old` with
`data` (given in local coordinates); out-of-range addressing is an error. -/
def ncPutVara {α : Type} (shape starts counts : List Nat) (data old : List Nat → α) :
    Except Err (List Nat → α) :=
  if validSlab shape starts counts then
    .ok fun idx =>
      if inSlab starts counts idx then data (List.zipWith (fun i s => i - s) idx starts)
      else old idx
  else .error (.storeError NC_EBADDIM)

/-- Modelled from the spec: the store's sub-array read primitive
(`nc_get_vara_<T>`).  Returns the addressed hyperrectangle in local
coordinates; out-of-range addressing is an error. -/
def ncGetVara {α : Type} (shape starts counts : List Nat) (arr : List Nat → α) :
    Except Err (List Nat → α) :=
  if validSlab shape starts counts then
    .ok fun lidx => arr (List.zipWith (· + ·) starts lidx)
  else .error (.storeError NC_EBADDIM)

/-- The state a `Variable`'s I/O methods act on: the file's global mode
(through the shared handle), the variable's stored atomic type `type_`, its
shape and its payload in the underlying store. -/
structure VarState (α : Type) where
  mode : Mode
  vtype : Ty
  shape : List Nat
  content : List Nat → α

/-- `Variable::check_type<T>`: compares `TypeMap<T>::value` against the
variable's stored type and throws on mismatch. -/
def check_type (c : CType) (vtype : Ty) : Except Err Unit :=
  if (typeMap c).value ≠ vtype then .error .typeMismatch else .ok ()

/-- `Variable::write(starts, counts, data)`: `check_type`, then
`assert_write_mode` (which, run against the actual primitive, always succeeds
and lands in data mode, cf. `runEnddef_ok`), then `TypeMap<T>::write_array`
(= `nc_put_vara_<T>`). -/
def Variable.write {α : Type} (c : CType) (starts counts : List Nat) (data : List Nat → α)
    (st : VarState α) : NcResult (VarState α) Unit :=
  match check_type c st.vtype with
  | .error e => .err e st
  | .ok _ =>
    let st1 : VarState α := { st with mode := .data }
    match ncPutVara st1.shape starts counts data st1.content with
    | .error e => .err e st1
    | .ok content' => .ok () { st1 with content := content' }

/-- `Variable::read(starts, counts, data)`: `check_type`, then
`assert_write_mode`, then `TypeMap<T>::read_array` (= `nc_get_vara_<T>`).
The read-back buffer is returned in local coordinates. -/
def Variable.read {α : Type} (c : CType) (starts counts : List Nat)
    (st : VarState α) : NcResult (VarState α) (List Nat → α) :=
  match check_type c st.vtype with
  | .error e => .err e st
  | .ok _ =>
    let st1 : VarState α := { st with mode := .data }
    match ncGetVara st1.shape starts counts st1.content with
    | .error e => .err e st1
    | .ok out => .ok out st1

/-! ## The underlying container (store) and the catalog types -/

/-- `(size_t)(-1)`, the value `Dimension::size` receives for an unlimited
dimension in `Dimension(name, -1)`. -/
def SIZE_MAX : Nat := 2 ^ 64 - 1

/-- Modelled from the spec: one dimension as recorded in the underlying
container (id, name, current size, unlimited flag). -/
structure StoreDim where
  id : Int
  name : String
  size : Nat
  unlimited : Bool
  deriving DecidableEq, Repr

/-- Modelled from the spec: one variable as recorded in the underlying
container (id, name, atomic type tag, ordered dimension-id list). -/
structure StoreVar where
  id : Int
  name : String
  ty : Ty
  dimIds : List Int
  deriving DecidableEq, Repr

/-- Modelled from the spec: the contents of one container (group) in the
underlying store.  Child groups are kept only by name; the embedded layer
reads nothing else of them. -/
structure StoreGroup where
  dims : List StoreDim
  vars : List StoreVar
  subgroups : List String
  nAttrs : Nat
  deriving DecidableEq, Repr

/-- Modelled from the spec: `nc_inq_dimids` — count and ids of the
container's dimensions. -/
def ncInqDimids (g : StoreGroup) : Nat × List Int :=
  (g.dims.length, g.dims.map (·.id))

/-- Modelled from the spec: `nc_inq_unlimdims` — count and ids of the
container's unlimited dimensions. -/
def ncInqUnlimdims (g : StoreGroup) : Nat × List Int :=
  ((g.dims.filter (·.unlimited)).length, (g.dims.filter (·.unlimited)).map (·.id))

/-- Modelled from the spec: `nc_inq_varids` — count and ids of the
container's variables. -/
def ncInqVarids (g : StoreGroup) : Nat × List Int :=
  (g.vars.length, g.vars.map (·.id))

/-- Modelled from the spec: `nc_inq_grps` — count of the container's child
groups. -/
def ncInqGrps (g : StoreGroup) : Nat × List String :=
  (g.subgroups.length, g.subgroups)

/-- Modelled from the spec: `nc_inq_dim` — name and current size of a
dimension looked up by id. -/
def inqDim (g : StoreGroup) (did : Int) : Except Err (String × Nat) :=
  match g.dims.find? (fun d => d.id == did) with
  | some d => .ok (d.name, d.size)
  | none => .error (.storeError NC_EBADDIM)

/-- Modelled from the spec: `nc_inq_var` — name and type tag of a variable
looked up by id. -/
def inqVar (g : StoreGroup) (vid : Int) : Except Err (String × Ty) :=
  match g.vars.find? (fun v => v.id == vid) with
  | some v => .ok (v.name, v.ty)
  | none => .error (.storeError NC_ENOTVAR)

/-- Modelled from the spec: `nc_inq_vardimid` — the ordered dimension-id
list of a variable looked up by id. -/
def inqVarDimids (g : StoreGroup) (vid : Int) : Except Err (List Int) :=
  match g.vars.find? (fun v => v.id == vid) with
  | some v => .ok v.dimIds
  | none => .error (.storeError NC_ENOTVAR)

/-- `struct Dimension` of the source: id, size, unlimited flag, name. -/
structure Dimension where
  id : Int := 0
  size : Nat := 0
  unlimited : Bool := false
  name : String := ""
  deriving DecidableEq, Repr

/-- The in-memory `Variable` object: id, name, stored atomic type and the
dimension descriptors re-derived from the store. -/
structure Variable where
  id : Int := 0
  name : String := ""
  ty : Ty := tyNotAType
  dimensions : List Dimension := []
  deriving DecidableEq, Repr

/-- `std::map` assignment `m[k] = v`: replaces the entry for `k`, or appends
a new one. -/
def mapInsert {β : Type} (k : String) (v : β) : List (String × β) → List (String × β)
  | [] => [(k, v)]
  | (k', v') :: rest =>
    if k = k' then (k, v) :: rest else (k', v') :: mapInsert k v rest

/-- `std::map::find` by key. -/
def mapFind {β : Type} (k : String) : List (String × β) → Option β
  | [] => none
  | (k', v') :: rest => if k = k' then some v' else mapFind k rest

/-! ## `Group::parse_dimensions`, `Group::parse_variables`,
`Group::Group` (source lines 339-397) -/

/-- The catalog entry built for dimension id `did` during one pass of
`Group::parse_dimensions`: a fresh `Dimension{dim_id}` whose `name`/`size`
are filled by `nc_inq_dim` and whose `unlimited` flag is the pass's. -/
def dimEntry (unl : Bool) (did : Int) (nm : String) (sz : Nat) : Dimension :=
  { id := did, size := sz, unlimited := unl, name := nm }

/-- One pass of `Group::parse_dimensions`: walk a list of dimension ids in
order, inquire each, and record it in the name-keyed catalog (overwriting any
previous entry for the same name). -/
def runDimPass (g : StoreGroup) (unl : Bool) :
    List Int → List (String × Dimension) → Except Err (List (String × Dimension))
  | [], m => .ok m
  | did :: rest, m =>
    match inqDim g did with
    | .error e => .error e
    | .ok (nm, sz) => runDimPass g unl rest (mapInsert nm (dimEntry unl did nm sz) m)

/-- `Group::parse_dimensions`: first pass over all dimension ids records
fixed entries; second pass over the unlimited ids overwrites those entries
with `unlimited = true` (the size set to `-1` is immediately overwritten by
`nc_inq_dim` with the store's current size). -/
def Group.parse_dimensions (g : StoreGroup) : Except Err (List (String × Dimension)) :=
  match runDimPass g false (ncInqDimids g).2 [] with
  | .error e => .error e
  | .ok m => runDimPass g true (ncInqUnlimdims g).2 m

/-- `Variable::parse_dimensions` body: inquire each dimension id of the
variable in order and collect the descriptors (`unlimited` stays `false` —
the per-variable pass never marks unlimited dimensions). -/
def varDims (g : StoreGroup) : List Int → Except Err (List Dimension)
  | [] => .ok []
  | did :: rest =>
    match inqDim g did with
    | .error e => .error e
    | .ok (nm, sz) =>
      match varDims g rest with
      | .error e => .error e
      | .ok ds => .ok ({ id := did, size := sz, unlimited := false, name := nm } :: ds)

/-- The `Variable(file_ptr, parent_id, id)` constructor: `nc_inq_var` for
name and type, then `nc_inq_vardimid` and the per-variable dimension pass. -/
def mkVariable (g : StoreGroup) (vid : Int) : Except Err Variable :=
  match inqVar g vid with
  | .error e => .error e
  | .ok (nm, ty) =>
    match inqVarDimids g vid with
    | .error e => .error e
    | .ok dids =>
      match varDims g dids with
      | .error e => .error e
      | .ok ds => .ok { id := vid, name := nm, ty := ty, dimensions := ds }

/-- `Group::parse_variables`: walk the variable ids in order, construct each
`Variable` and register it in the name-keyed catalog. -/
def runVarPass (g : StoreGroup) :
    List Int → List (String × Variable) → Except Err (List (String × Variable))
  | [], m => .ok m
  | vid :: rest, m =>
    match mkVariable g vid with
    | .error e => .error e
    | .ok v => runVarPass g rest (mapInsert v.name v m)

/-- The in-memory state the `Group` constructor produces: the queried counts
and the dimension/variable catalogs.  The source has no child-group catalog
(`parse_groups` is commented out) and no attribute catalog. -/
structure GroupCat where
  nDims : Nat
  nUnlDims : Nat
  nVars : Nat
  nAttrs : Nat
  nGroups : Nat
  dimensions : List (String × Dimension)
  vars : List (String × Variable)
  deriving DecidableEq, Repr

/-- `Group::Group(file_ptr, id, name)`: inquire the five counts, then
`parse_dimensions()` and `parse_variables()`; `parse_attributes()` and
`parse_groups()` are commented out in the source. -/
def openGroup (g : StoreGroup) : Except Err GroupCat :=
  let nDims := (ncInqDimids g).1
  let nUnl := (ncInqUnlimdims g).1
  let nVars := (ncInqVarids g).1
  let nAttrs := g.nAttrs
  let nGroups := (ncInqGrps g).1
  match Group.parse_dimensions g with
  | .error e => .error e
  | .ok dims =>
    match runVarPass g (ncInqVarids g).2 [] with
    | .error e => .error e
    | .ok vars =>
      .ok { nDims := nDims, nUnlDims := nUnl, nVars := nVars, nAttrs := nAttrs,
            nGroups := nGroups, dimensions := dims, vars := vars }

/-- `Group::get_dimension(name)`: catalog lookup, throwing when absent. -/
def get_dimension (name : String) (cat : List (String × Dimension)) : Except Err Dimension :=
  match mapFind name cat with
  | some d => .ok d
  | none => .error .notFound

/-- `Group::get_variable(name)`: catalog lookup, throwing when absent. -/
def get_variable (name : String) (cat : List (String × Variable)) : Except Err Variable :=
  match mapFind name cat with
  | some v => .ok v
  | none => .error .notFound

/-! ## Group mutation: `sync`, `add_dimension`, `add_variable`
(source lines 399-456) -/

/-- The state a `Group`'s mutating methods act on: the global mode, the
underlying container, the object's two catalogs, and injectable result codes
for the store's definition and flush primitives (modelled from the spec: the
store may fail; `0` means success). -/
structure GState where
  mode : Mode
  store : StoreGroup
  dimensions : List (String × Dimension)
  vars : List (String × Variable)
  defDimCode : Int
  defVarCode : Int
  syncCode : Int
  deriving DecidableEq, Repr

/-- Modelled from the spec: `nc_def_dim` — on success appends a dimension
with a fresh sequential id and returns that id; on failure changes nothing. -/
def ncDefDim (st : StoreGroup) (code : Int) (name : String) (size : Nat)
    (unl : Bool) : Int × StoreGroup × Int :=
  if code ≠ 0 then (code, st, 0)
  else
    let did : Int := st.dims.length
    (0, { st with dims := st.dims ++ [⟨did, name, size, unl⟩] }, did)

/-- Modelled from the spec: `nc_def_var` — on success appends a variable
with a fresh sequential id and returns that id; on failure changes nothing. -/
def ncDefVar (st : StoreGroup) (code : Int) (name : String) (ty : Ty)
    (dimIds : List Int) : Int × StoreGroup × Int :=
  if code ≠ 0 then (code, st, 0)
  else
    let vid : Int := st.vars.length
    (0, { st with vars := st.vars ++ [⟨vid, name, ty, dimIds⟩] }, vid)

/-- `Group::sync`: `assert_write_mode()` (which always succeeds against the
actual primitive and lands in data mode, cf. `runEnddef_ok`), then `nc_sync`
through `handle_error`. -/
def Group.sync (s : GState) : NcResult GState Unit :=
  let s1 : GState := { s with mode := .data }
  match handle_error s.syncCode with
  | .error e => .err e s1
  | .ok _ => .ok () s1

/-- `Group::add_dimension(name, size)` (fixed size): `assert_define_mode()`;
`nc_def_dim`; `handle_error`; insert the entry into the catalog; `sync()`. -/
def add_dimension (s : GState) (name : String) (size : Nat) : NcResult GState Unit :=
  let s1 : GState := { s with mode := .define }
  let r := ncDefDim s.store s.defDimCode name size false
  match handle_error r.1 with
  | .error e => .err e { s1 with store := r.2.1 }
  | .ok _ =>
    let dim : Dimension := { id := r.2.2, size := size, unlimited := false, name := name }
    Group.sync { s1 with store := r.2.1, dimensions := mapInsert name dim s1.dimensions }

/-- `Group::add_dimension(name)` (unlimited): `assert_define_mode()`;
`nc_def_dim` with `NC_UNLIMITED`; `handle_error`; `sync()`; only then insert
the entry (size `(size_t)(-1)`, unlimited flag set) into the catalog. -/
def add_dimension_unlimited (s : GState) (name : String) : NcResult GState Unit :=
  let s1 : GState := { s with mode := .define }
  let r := ncDefDim s.store s.defDimCode name 0 true
  match handle_error r.1 with
  | .error e => .err e { s1 with store := r.2.1 }
  | .ok _ =>
    let dim : Dimension := { id := r.2.2, size := SIZE_MAX, unlimited := true, name := name }
    match Group.sync { s1 with store := r.2.1 } with
    | .err e s2 => .err e s2
    | .ok _ s2 => .ok () { s2 with dimensions := mapInsert name dim s2.dimensions }

/-- The dimension-name resolution loop of `Group::add_variable`: look each
name up in the group's own dimension catalog, in order, collecting the ids;
the first unknown name throws. -/
def resolveDims (cat : List (String × Dimension)) : List String → Except Err (List Int)
  | [] => .ok []
  | d :: rest =>
    match mapFind d cat with
    | none => .error .undefinedDimension
    | some dim =>
      match resolveDims cat rest with
      | .error e => .error e
      | .ok ids => .ok (dim.id :: ids)

/-- `Group::add_variable(name, dimensions, type)`: `assert_define_mode()`;
resolve the dimension names in order; `nc_def_var`; `handle_error`; `sync()`;
construct the `Variable` from the store and register it under `name`; return
the registered entry (`variables_[name]` right after the assignment). -/
def add_variable (s : GState) (name : String) (dimNames : List String)
    (ty : Ty) : NcResult GState Variable :=
  let s1 : GState := { s with mode := .define }
  match resolveDims s.dimensions dimNames with
  | .error e => .err e s1
  | .ok dimIds =>
    let r := ncDefVar s.store s.defVarCode name ty dimIds
    match handle_error r.1 with
    | .error e => .err e { s1 with store := r.2.1 }
    | .ok _ =>
      match Group.sync { s1 with store := r.2.1 } with
      | .err e s2 => .err e s2
      | .ok _ s2 =>
        match mkVariable s2.store r.2.2 with
        | .error e => .err e s2
        | .ok var => .ok var { s2 with vars := mapInsert name var s2.vars }

/-! ## Hyperslab arithmetic lemmas -/

theorem validSlab_lengths (shape starts counts : List Nat)
    (h : validSlab shape starts counts = true) : starts.length = counts.length := by
  induction shape generalizing starts counts with
  | nil =>
    cases starts with
    | nil => cases counts with
      | nil => rfl
      | cons c cs => simp [validSlab] at h
    | cons s ss => cases counts <;> simp [validSlab] at h
  | cons e es ih =>
    cases starts with
    | nil => cases counts <;> simp [validSlab] at h
    | cons s ss =>
      cases counts with
      | nil => simp [validSlab] at h
      | cons c cs =>
        simp only [validSlab, Bool.and_eq_true] at h
        simp [ih ss cs h.2]

theorem withinCounts_length (idx counts : List Nat)
    (h : withinCounts idx counts = true) : idx.length = counts.length := by
  induction idx generalizing counts with
  | nil =>
    cases counts with
    | nil => rfl
    | cons c cs => simp [withinCounts] at h
  | cons i is' ih =>
    cases counts with
    | nil => simp [withinCounts] at h
    | cons c cs =>
      simp only [withinCounts, Bool.and_eq_true] at h
      simp [ih cs h.2]

theorem inSlab_shift (starts counts lidx : List Nat)
    (hlen : starts.length = counts.length) (h : withinCounts lidx counts = true) :
    inSlab starts counts (List.zipWith (· + ·) starts lidx) = true := by
  induction starts generalizing counts lidx with
  | nil =>
    cases counts with
    | nil => cases lidx with
      | nil => rfl
      | cons i is' => simp [withinCounts] at h
    | cons c cs => simp at hlen
  | cons s ss ih =>
    cases counts with
    | nil => simp at hlen
    | cons c cs =>
      cases lidx with
      | nil => simp [withinCounts] at h
      | cons i is' =>
        simp only [withinCounts, Bool.and_eq_true, decide_eq_true_eq] at h
        simp only [List.zipWith_cons_cons, inSlab, Bool.and_eq_true, decide_eq_true_eq]
        exact ⟨⟨Nat.le_add_right s i, Nat.add_lt_add_left h.1 s⟩,
          ih cs is' (by simpa using hlen) h.2⟩

theorem sub_shift (starts lidx : List Nat) (hlen : starts.length = lidx.length) :
    List.zipWith (fun i s => i - s) (List.zipWith (· + ·) starts lidx) starts = lidx := by
  induction starts generalizing lidx with
  | nil =>
    cases lidx with
    | nil => rfl
    | cons i is' => simp at hlen
  | cons s ss ih =>
    cases lidx with
    | nil => simp at hlen
    | cons i is' =>
      simp only [List.zipWith_cons_cons, Nat.add_sub_cancel_left]
      rw [ih is' (by simpa using hlen)]

/-! ## Result of a successful hyperslab write / read -/

theorem write_array_ok {α : Type} (c : CType) (starts counts : List Nat)
    (data : List Nat → α) (st : VarState α)
    (htype : (typeMap c).value = st.vtype)
    (hvalid : validSlab st.shape starts counts = true) :
    Variable.write c starts counts data st = .ok ()
      { st with mode := .data, content := fun idx =>
          if inSlab starts counts idx then
            data (List.zipWith (fun i s => i - s) idx starts)
          else st.content idx } := by
  simp [Variable.write, check_type, htype, ncPutVara, hvalid]

theorem read_array_ok {α : Type} (c : CType) (starts counts : List Nat)
    (st : VarState α)
    (htype : (typeMap c).value = st.vtype)
    (hvalid : validSlab st.shape starts counts = true) :
    Variable.read c starts counts st = .ok
      (fun lidx => st.content (List.zipWith (· + ·) starts lidx))
      { st with mode := .data } := by
  simp [Variable.read, check_type, htype, ncGetVara, hvalid]

/-! ## Claim theorems (hyperslab, types, modes, lifetime) -/

/-- Claim C1: writing a hyperslab at `starts`/`counts` through
`Variable::write` and reading the same `starts`/`counts` back through
`Variable::read` returns exactly the written values element-for-element, and
elements outside the addressed region are unchanged by the write. -/
theorem claim_hyperslab_round_trip {α : Type} (c : CType) (starts counts : List Nat)
    (data : List Nat → α) (st : VarState α)
    (htype : (typeMap c).value = st.vtype)
    (hvalid : validSlab st.shape starts counts = true) :
    ∃ st', Variable.write c starts counts data st = .ok () st' ∧
      (∃ r st'', Variable.read c starts counts st' = .ok r st'' ∧
        ∀ lidx, withinCounts lidx counts = true → r lidx = data lidx) ∧
      (∀ idx, inSlab starts counts idx = false → st'.content idx = st.content idx) := by
  have hlen : starts.length = counts.length := validSlab_lengths st.shape starts counts hvalid
  refine ⟨_, write_array_ok c starts counts data st htype hvalid,
    ⟨_, _, read_array_ok c starts counts _ htype hvalid, ?_⟩, ?_⟩
  · intro lidx hw
    have hin : inSlab starts counts (List.zipWith (· + ·) starts lidx) = true :=
      inSlab_shift starts counts lidx hlen hw
    have hsub : List.zipWith (fun i s => i - s)
        (List.zipWith (· + ·) starts lidx) starts = lidx :=
      sub_shift starts lidx (hlen.trans (withinCounts_length lidx counts hw).symm)
    simp [hin, hsub]
  · intro idx hout
    simp [hout]

/-- Claim C1 witness: concrete 1-d round trip over a variable of extent 4,
writing values 10 and 11 at offsets 1 and 2. -/
theorem claim_hyperslab_round_trip_witness :
    (typeMap CType.cInt).value = tyInt ∧ validSlab [4] [1] [2] = true ∧
    (∃ st', Variable.write CType.cInt [1] [2] (fun lidx => lidx.headD 0 + 10)
        ⟨Mode.define, tyInt, [4], fun _ => (0 : Nat)⟩ = .ok () st' ∧
      (∃ r st'', Variable.read CType.cInt [1] [2] st' = .ok r st'' ∧
        ∀ lidx, withinCounts lidx [2] = true → r lidx = lidx.headD 0 + 10) ∧
      (∀ idx, inSlab [1] [2] idx = false → st'.content idx = 0)) :=
  ⟨by decide, by decide,
    claim_hyperslab_round_trip CType.cInt [1] [2] (fun lidx => lidx.headD 0 + 10)
      ⟨Mode.define, tyInt, [4], fun _ => (0 : Nat)⟩ (by decide) (by decide)⟩

/-- Claim C3: `assert_write_mode` absorbs "already in data mode"
(`NC_ENOTINDEFINE`), `assert_define_mode` absorbs "already in define mode"
(`NC_EINDEFINE`), and any other nonzero primitive code is raised. -/
theorem claim_mode_idempotent :
    assert_write_mode NC_ENOTINDEFINE = .ok () ∧
    assert_define_mode NC_EINDEFINE = .ok () ∧
    (∀ code : Int, code ≠ NC_NOERR → code ≠ NC_ENOTINDEFINE →
      assert_write_mode code = .error (.storeError code)) ∧
    (∀ code : Int, code ≠ NC_NOERR → code ≠ NC_EINDEFINE →
      assert_define_mode code = .error (.storeError code)) := by
  refine ⟨by simp [assert_write_mode], by simp [assert_define_mode], ?_, ?_⟩
  · intro code h0 h38
    simp [assert_write_mode, handle_error, h38, h0]
  · intro code h0 h39
    simp [assert_define_mode, handle_error, h39, h0]

/-- Claim C3 witness: `NC_EBADID` (-33) is raised by both assertions, and the
"already in requested mode" codes are absorbed. -/
theorem claim_mode_idempotent_witness :
    assert_write_mode NC_ENOTINDEFINE = .ok () ∧
    assert_define_mode NC_EINDEFINE = .ok () ∧
    assert_write_mode NC_EBADID = .error (.storeError NC_EBADID) ∧
    assert_define_mode NC_EBADID = .error (.storeError NC_EBADID) :=
  ⟨claim_mode_idempotent.1, claim_mode_idempotent.2.1,
   claim_mode_idempotent.2.2.1 NC_EBADID (by decide) (by decide),
   claim_mode_idempotent.2.2.2 NC_EBADID (by decide) (by decide)⟩

/-- Claim C4: a read or write whose scalar type maps to a tag different from
the variable's stored atomic type fails with the type-mismatch error and
returns the state exactly as it was: no mode transition and no data
transfer happen. -/
theorem claim_type_mismatch {α : Type} (c : CType) (starts counts : List Nat)
    (data : List Nat → α) (st : VarState α)
    (h : (typeMap c).value ≠ st.vtype) :
    Variable.write c starts counts data st = .err .typeMismatch st ∧
    Variable.read c starts counts st = .err .typeMismatch st := by
  constructor <;> simp [Variable.write, Variable.read, check_type, h]

/-- Claim C4 witness: writing a float-typed buffer to an int variable fails
with a type mismatch and leaves the state untouched. -/
theorem claim_type_mismatch_witness :
    Variable.write CType.cFloat [0] [1] (fun _ => (7 : Nat))
      ⟨Mode.data, tyInt, [4], fun _ => (0 : Nat)⟩ =
      .err .typeMismatch ⟨Mode.data, tyInt, [4], fun _ => (0 : Nat)⟩ ∧
    Variable.read CType.cFloat [0] [1]
      ⟨Mode.data, tyInt, [4], fun _ => (0 : Nat)⟩ =
      .err .typeMismatch ⟨Mode.data, tyInt, [4], fun _ => (0 : Nat)⟩ :=
  claim_type_mismatch CType.cFloat [0] [1] (fun _ => (7 : Nat))
    ⟨Mode.data, tyInt, [4], fun _ => (0 : Nat)⟩ (by decide)

/-- Claim C7: only the first `close` on an open handle performs the release;
a failed release propagates and leaves the handle open; any close on an
already-closed handle is a no-op that performs no release and raises no
error. -/
theorem claim_close_idempotent :
    (∀ f : FileID, f.isOpen = true →
      FileID.close f NC_NOERR = .ok true ⟨false⟩) ∧
    (∀ (f : FileID) (code : Int), f.isOpen = true → code ≠ NC_NOERR →
      FileID.close f code = .err (.storeError code) f) ∧
    (∀ (f : FileID) (code : Int), f.isOpen = false →
      FileID.close f code = .ok false f) := by
  refine ⟨?_, ?_, ?_⟩
  · intro f h
    simp [FileID.close, h, handle_error]
  · intro f code h hc
    simp [FileID.close, h, handle_error, hc]
  · intro f code h
    simp [FileID.close, h]

/-- Claim C7 witness: a concrete close/re-close sequence, plus a failing
close that leaves the handle open. -/
theorem claim_close_idempotent_witness :
    FileID.close ⟨true⟩ NC_NOERR = .ok true ⟨false⟩ ∧
    FileID.close ⟨false⟩ NC_EBADID = .ok false ⟨false⟩ ∧
    FileID.close ⟨true⟩ NC_EBADID = .err (.storeError NC_EBADID) ⟨true⟩ :=
  ⟨claim_close_idempotent.1 ⟨true⟩ rfl,
   claim_close_idempotent.2.2 ⟨false⟩ NC_EBADID rfl,
   claim_close_idempotent.2.1 ⟨true⟩ NC_EBADID rfl (by decide)⟩

/-- Claim C8 failing input: on an open handle whose underlying `nc_close`
fails (`NC_EBADID`), the destructor-equivalent `~FileID` (which just calls
`close()`, with no catch) surfaces the thrown failure instead of
swallowing it. -/
theorem claim_dtor_raises :
    FileID.dtor ⟨true⟩ NC_EBADID = .err (.storeError NC_EBADID) ⟨true⟩ := by
  decide

/-- Claim C9 failing input: in every `TypeMap` specialization the whole-array
`read` entry point is bound to the `nc_put_var_<T>` write primitive — it
coincides with the `write` entry point and is a put, not a get, so the map
does not provide eight distinct entry points with all reads bound to get
primitives. -/
theorem claim_typemap_read_is_put :
    (typeMap .cInt).read = ⟨.put, .whole, .eInt⟩ ∧
    (typeMap .cFloat).read = ⟨.put, .whole, .eFloat⟩ ∧
    (typeMap .cDouble).read = ⟨.put, .whole, .eDouble⟩ ∧
    (typeMap .cChar).read = ⟨.put, .whole, .eSChar⟩ ∧
    (∀ c : CType, (typeMap c).read = (typeMap c).write ∧ (typeMap c).read.op = .put) := by
  refine ⟨rfl, rfl, rfl, rfl, ?_⟩
  intro c
  cases c <;> exact ⟨rfl, rfl⟩

/-! ## Claim theorems (catalog construction and mutation) -/

/-- Claim C10: a failed `nc_def_dim` propagates from either `add_dimension`
overload with the catalog unchanged; when `nc_def_dim` succeeds but the
`sync` flush fails, the fixed-size overload has already inserted the entry
into the catalog while the unlimited overload propagates with the catalog
still unchanged. -/
theorem claim_add_dimension_atomicity (s : GState) (name : String) (size : Nat) :
    (s.defDimCode ≠ 0 →
      add_dimension s name size =
        .err (.storeError s.defDimCode) { s with mode := .define } ∧
      add_dimension_unlimited s name =
        .err (.storeError s.defDimCode) { s with mode := .define }) ∧
    (s.defDimCode = 0 → s.syncCode ≠ 0 →
      add_dimension s name size = .err (.storeError s.syncCode)
        { s with
          mode := .data
          store := { s.store with
            dims := s.store.dims ++ [⟨(s.store.dims.length : Int), name, size, false⟩] }
          dimensions := mapInsert name
            ⟨(s.store.dims.length : Int), size, false, name⟩ s.dimensions } ∧
      add_dimension_unlimited s name = .err (.storeError s.syncCode)
        { s with
          mode := .data
          store := { s.store with
            dims := s.store.dims ++ [⟨(s.store.dims.length : Int), name, 0, true⟩] } }) := by
  constructor
  · intro h
    constructor <;>
      simp [add_dimension, add_dimension_unlimited, ncDefDim, handle_error, h, NC_NOERR]
  · intro h0 hs
    constructor <;>
      simp [add_dimension, add_dimension_unlimited, ncDefDim, Group.sync,
        handle_error, h0, hs, NC_NOERR]

/-- Claim C10 witness: concrete failing define-dimension call and concrete
failing sync, on an initially empty group. -/
theorem claim_add_dimension_atomicity_witness :
    (add_dimension ⟨.data, ⟨[], [], [], 0⟩, [], [], -1, 0, 0⟩ "d" 5 =
      .err (.storeError (-1)) ⟨.define, ⟨[], [], [], 0⟩, [], [], -1, 0, 0⟩ ∧
     add_dimension_unlimited ⟨.data, ⟨[], [], [], 0⟩, [], [], -1, 0, 0⟩ "d" =
      .err (.storeError (-1)) ⟨.define, ⟨[], [], [], 0⟩, [], [], -1, 0, 0⟩) ∧
    (add_dimension ⟨.data, ⟨[], [], [], 0⟩, [], [], 0, 0, -1⟩ "d" 5 =
      .err (.storeError (-1))
        ⟨.data, ⟨[⟨0, "d", 5, false⟩], [], [], 0⟩,
          [("d", ⟨0, 5, false, "d"⟩)], [], 0, 0, -1⟩ ∧
     add_dimension_unlimited ⟨.data, ⟨[], [], [], 0⟩, [], [], 0, 0, -1⟩ "d" =
      .err (.storeError (-1))
        ⟨.data, ⟨[⟨0, "d", 0, true⟩], [], [], 0⟩, [], [], 0, 0, -1⟩) :=
  ⟨(claim_add_dimension_atomicity ⟨.data, ⟨[], [], [], 0⟩, [], [], -1, 0, 0⟩ "d" 5).1
      (by decide),
   ⟨((claim_add_dimension_atomicity ⟨.data, ⟨[], [], [], 0⟩, [], [], 0, 0, -1⟩ "d" 5).2
      (by decide) (by decide)).1,
    ((claim_add_dimension_atomicity ⟨.data, ⟨[], [], [], 0⟩, [], [], 0, 0, -1⟩ "d" 5).2
      (by decide) (by decide)).2⟩⟩

/-- Claim C2 failing input: the `Group` constructor builds no child-group
catalog (`parse_groups` is commented out); opening a container that holds a
child group named `test_group_1` produces exactly the same in-memory state as
opening one whose single child group has a different name — only the count
survives, no group is populated. -/
theorem claim_open_ignores_subgroups :
    openGroup { dims := [⟨0, "dimension_1", 10, false⟩], vars := [],
                subgroups := ["test_group_1"], nAttrs := 0 } =
      openGroup { dims := [⟨0, "dimension_1", 10, false⟩], vars := [],
                  subgroups := ["some_other_group"], nAttrs := 0 } ∧
    (openGroup { dims := [⟨0, "dimension_1", 10, false⟩], vars := [],
                 subgroups := ["test_group_1"], nAttrs := 0 }).map (·.nGroups) =
      .ok 1 := by
  constructor <;> rfl

/-! ## Catalog-map lemmas -/

theorem mapFind_insert_self {β : Type} (k : String) (v : β) (m : List (String × β)) :
    mapFind k (mapInsert k v m) = some v := by
  induction m with
  | nil => simp [mapInsert, mapFind]
  | cons p rest ih =>
    obtain ⟨k', v'⟩ := p
    by_cases hk : k = k'
    · simp [mapInsert, hk, mapFind]
    · simp [mapInsert, hk, mapFind, ih]

theorem mapFind_insert_ne {β : Type} (k k' : String) (hne : k ≠ k') (v : β)
    (m : List (String × β)) : mapFind k (mapInsert k' v m) = mapFind k m := by
  induction m with
  | nil => simp [mapInsert, mapFind, hne]
  | cons p rest ih =>
    obtain ⟨k2, v2⟩ := p
    by_cases hk : k' = k2
    · subst hk
      simp [mapInsert, mapFind, hne]
    · by_cases hk2 : k = k2
      · simp [mapInsert, hk, mapFind, hk2]
      · simp [mapInsert, hk, mapFind, hk2, ih]

/-- With unique ids, `nc_inq_dim`'s id lookup resolves a listed dimension to
itself. -/
theorem find_by_id (ds : List StoreDim) (h : (ds.map (·.id)).Nodup)
    (d : StoreDim) (hd : d ∈ ds) : ds.find? (fun x => x.id == d.id) = some d := by
  induction ds with
  | nil => cases hd
  | cons x rest ih =>
    rcases List.mem_cons.mp hd with rfl | hmem
    · exact List.find?_cons_of_pos _ (by simp)
    · have h1 : x.id ∉ rest.map (·.id) := (List.nodup_cons.mp h).1
      have hx : (x.id == d.id) = false := by
        refine beq_eq_false_iff_ne.mpr fun he => h1 ?_
        exact he ▸ List.mem_map_of_mem (·.id) hmem
      rw [List.find?_cons_of_neg _ (by simp [hx])]
      exact ih (List.nodup_cons.mp h).2 hmem

/-- One pass of `parse_dimensions` over ids that all resolve is the pure
insertion fold over the dimensions themselves. -/
theorem runDimPass_resolved (g : StoreGroup) (unl : Bool) (ds : List StoreDim)
    (h : ∀ d ∈ ds, g.dims.find? (fun x => x.id == d.id) = some d)
    (m : List (String × Dimension)) :
    runDimPass g unl (ds.map (·.id)) m =
      .ok (ds.foldl (fun m d => mapInsert d.name (dimEntry unl d.id d.name d.size) m) m) := by
  induction ds generalizing m with
  | nil => rfl
  | cons d rest ih =>
    have hd := h d (List.mem_cons_self d rest)
    simp only [List.map_cons, runDimPass, inqDim, hd, List.foldl_cons]
    exact ih (fun d' hd' => h d' (List.mem_cons_of_mem d hd')) _

/-- A dimension-insertion fold leaves keys it never touches alone. -/
theorem mapFind_dimFold_skip (unl : Bool) (ds : List StoreDim) (k : String)
    (h : ∀ d ∈ ds, d.name ≠ k) (m : List (String × Dimension)) :
    mapFind k
      (ds.foldl (fun m x => mapInsert x.name (dimEntry unl x.id x.name x.size) m) m) =
      mapFind k m := by
  induction ds generalizing m with
  | nil => rfl
  | cons d rest ih =>
    simp only [List.foldl_cons]
    rw [ih (fun d' hd' => h d' (List.mem_cons_of_mem d hd')) _]
    exact mapFind_insert_ne k d.name (fun he => h d (List.mem_cons_self d rest) he.symm) _ m

/-- A dimension-insertion fold over uniquely named dimensions records each of
them under its name. -/
theorem mapFind_dimFold_mem (unl : Bool) (ds : List StoreDim)
    (h : (ds.map (·.name)).Nodup) (d : StoreDim) (hd : d ∈ ds)
    (m : List (String × Dimension)) :
    mapFind d.name
      (ds.foldl (fun m x => mapInsert x.name (dimEntry unl x.id x.name x.size) m) m) =
      some (dimEntry unl d.id d.name d.size) := by
  induction ds generalizing m with
  | nil => cases hd
  | cons x rest ih =>
    simp only [List.foldl_cons]
    rcases List.mem_cons.mp hd with rfl | hmem
    · rw [mapFind_dimFold_skip unl rest d.name ?_ _]
      · exact mapFind_insert_self _ _ _
      · intro d' hd' he
        have hmem : d'.name ∈ rest.map (·.name) := List.mem_map_of_mem _ hd'
        rw [he] at hmem
        exact (List.nodup_cons.mp h).1 hmem
    · exact ih (List.nodup_cons.mp h).2 hmem _

/-- Claim C6: `Group::parse_dimensions` records all dimensions as fixed
entries in a first pass and overwrites the unlimited ones in a second pass,
so that `get_dimension` on the rebuilt catalog reports every unlimited
dimension with its flag set and every fixed dimension with flag clear and
its defined size. -/
theorem claim_dimension_catalog_rebuild (g : StoreGroup)
    (hids : (g.dims.map (·.id)).Nodup)
    (hnames : (g.dims.map (·.name)).Nodup) :
    ∃ m, Group.parse_dimensions g = .ok m ∧
      ∀ d ∈ g.dims, get_dimension d.name m =
        .ok { id := d.id, size := d.size, unlimited := d.unlimited, name := d.name } := by
  have hres : ∀ d ∈ g.dims, g.dims.find? (fun x => x.id == d.id) = some d :=
    fun d hd => find_by_id g.dims hids d hd
  have hres' : ∀ d ∈ g.dims.filter (·.unlimited),
      g.dims.find? (fun x => x.id == d.id) = some d :=
    fun d hd => hres d (List.mem_of_mem_filter hd)
  have hfil : ((g.dims.filter (·.unlimited)).map (·.name)).Nodup :=
    (((List.filter_sublist g.dims).map (·.name)).nodup hnames)
  have h1 := runDimPass_resolved g false g.dims hres []
  have h2 := runDimPass_resolved g true (g.dims.filter (·.unlimited)) hres'
    (g.dims.foldl (fun m d => mapInsert d.name (dimEntry false d.id d.name d.size) m) [])
  refine ⟨List.foldl (fun m d => mapInsert d.name (dimEntry true d.id d.name d.size) m)
      (List.foldl (fun m d => mapInsert d.name (dimEntry false d.id d.name d.size) m) [] g.dims)
      (g.dims.filter (·.unlimited)), ?_, ?_⟩
  · simp only [Group.parse_dimensions, ncInqDimids, ncInqUnlimdims, h1, h2]
  · intro d hd
    by_cases hu : d.unlimited = true
    · have hdf : d ∈ g.dims.filter (·.unlimited) := List.mem_filter.mpr ⟨hd, by simp [hu]⟩
      have := mapFind_dimFold_mem true (g.dims.filter (·.unlimited)) hfil d hdf
        (List.foldl (fun m d => mapInsert d.name (dimEntry false d.id d.name d.size) m) [] g.dims)
      simp only [get_dimension, this]
      simp [dimEntry, hu]
    · rw [Bool.not_eq_true] at hu
      have hskip : ∀ d' ∈ g.dims.filter (·.unlimited), d'.name ≠ d.name := by
        intro d' hd' he
        have : d' = d :=
          List.inj_on_of_nodup_map hnames (List.mem_of_mem_filter hd') hd he
        subst this
        have := (List.mem_filter.mp hd').2
        simp [hu] at this
      have e1 := mapFind_dimFold_skip true (g.dims.filter (·.unlimited)) d.name hskip
        (List.foldl (fun m d => mapInsert d.name (dimEntry false d.id d.name d.size) m) [] g.dims)
      have e2 := mapFind_dimFold_mem false g.dims hnames d hd ([] : List (String × Dimension))
      simp only [get_dimension, e1, e2]
      simp [dimEntry, hu]

/-- Claim C6 witness: a container with a fixed dimension of size 10 and an
unlimited dimension, rebuilt and queried. -/
theorem claim_dimension_catalog_rebuild_witness :
    ∃ m, Group.parse_dimensions
        { dims := [⟨0, "dimension_1", 10, false⟩, ⟨1, "dimension_unlimited", 7, true⟩],
          vars := [], subgroups := [], nAttrs := 0 } = .ok m ∧
      ∀ d ∈ ({ dims := [⟨0, "dimension_1", 10, false⟩, ⟨1, "dimension_unlimited", 7, true⟩],
               vars := [], subgroups := [], nAttrs := 0 } : StoreGroup).dims,
        get_dimension d.name m =
          .ok { id := d.id, size := d.size, unlimited := d.unlimited, name := d.name } :=
  claim_dimension_catalog_rebuild
    { dims := [⟨0, "dimension_1", 10, false⟩, ⟨1, "dimension_unlimited", 7, true⟩],
      vars := [], subgroups := [], nAttrs := 0 } (by decide) (by decide)

/-! ## `add_variable` lemmas -/

/-- If any requested dimension name is absent from the catalog, the
resolution loop throws the undefined-dimension error. -/
theorem resolveDims_missing (cat : List (String × Dimension)) (names : List String)
    (h : ∃ nm ∈ names, mapFind nm cat = none) :
    resolveDims cat names = .error .undefinedDimension := by
  induction names with
  | nil =>
    obtain ⟨nm, h1, _⟩ := h
    cases h1
  | cons n rest ih =>
    obtain ⟨nm, hmem, hnone⟩ := h
    rcases List.mem_cons.mp hmem with rfl | hmem'
    · simp [resolveDims, hnone]
    · cases hfind : mapFind n cat with
      | none => simp [resolveDims, hfind]
      | some dim => simp [resolveDims, hfind, ih ⟨nm, hmem', hnone⟩]

/-- `find?` on a list extended with a fresh matching element returns that
element when nothing before it matches. -/
theorem find?_append_fresh {p : StoreVar → Bool} (l : List StoreVar) (x : StoreVar)
    (h : ∀ v ∈ l, p v = false) (hx : p x = true) :
    (l ++ [x]).find? p = some x := by
  induction l with
  | nil => simp [List.find?, hx]
  | cons v rest ih =>
    rw [List.cons_append,
      List.find?_cons_of_neg _ (by simp [h v (List.mem_cons_self v rest)])]
    exact ih fun v' hv' => h v' (List.mem_cons_of_mem v hv')

/-- The per-variable dimension pass succeeds whenever every dimension id
occurs in the store. -/
theorem varDims_ok (g : StoreGroup) (dids : List Int)
    (h : ∀ did ∈ dids, ∃ d ∈ g.dims, (d.id == did) = true) :
    ∃ ds, varDims g dids = .ok ds := by
  induction dids with
  | nil => exact ⟨[], rfl⟩
  | cons did rest ih =>
    obtain ⟨d, hd, hpd⟩ := h did (List.mem_cons_self _ _)
    have hsome : (g.dims.find? (fun x => x.id == did)).isSome :=
      List.find?_isSome.mpr ⟨d, hd, hpd⟩
    obtain ⟨d', hd'⟩ := Option.isSome_iff_exists.mp hsome
    obtain ⟨ds, hds⟩ := ih fun x hx => h x (List.mem_cons_of_mem _ hx)
    exact ⟨{ id := did, size := d'.size, unlimited := false, name := d'.name } :: ds,
      by simp [varDims, inqDim, hd', hds]⟩

/-- Claim C5: `Group::add_variable` resolves the dimension names in order
against the group's own catalog; an unknown name throws the
undefined-dimension error with the store and both catalogs untouched; when
all resolve (and the store's define/flush primitives succeed), the variable
is defined in the store with the resolved ids in the given order, registered
in the catalog under its name, and returned. -/
theorem claim_add_variable (s : GState) (name : String) (dimNames : List String)
    (ty : Ty) :
    ((∃ nm ∈ dimNames, mapFind nm s.dimensions = none) →
      ∃ s', add_variable s name dimNames ty = .err .undefinedDimension s' ∧
        s'.vars = s.vars ∧ s'.store = s.store ∧ s'.dimensions = s.dimensions) ∧
    (∀ ids, resolveDims s.dimensions dimNames = .ok ids →
      s.defVarCode = 0 → s.syncCode = 0 →
      (∀ v ∈ s.store.vars, v.id ≠ (s.store.vars.length : Int)) →
      (∀ did ∈ ids, ∃ d ∈ s.store.dims, (d.id == did) = true) →
      ∃ var s', add_variable s name dimNames ty = .ok var s' ∧
        s'.store.vars = s.store.vars ++ [⟨(s.store.vars.length : Int), name, ty, ids⟩] ∧
        mapFind name s'.vars = some var ∧
        var.id = (s.store.vars.length : Int) ∧ var.name = name ∧ var.ty = ty ∧
        s'.dimensions = s.dimensions) := by
  constructor
  · intro hmiss
    exact ⟨{ s with mode := .define },
      by simp [add_variable, resolveDims_missing s.dimensions dimNames hmiss],
      rfl, rfl, rfl⟩
  · intro ids hres h0var h0sync hfresh hdims
    have hnone : List.find? (fun v => v.id == (s.store.vars.length : Int)) s.store.vars =
        none := by
      rw [List.find?_eq_none]
      intro v hv
      simpa using hfresh v hv
    obtain ⟨ds, hds⟩ := varDims_ok
      { s.store with
          vars := s.store.vars ++
            [{ id := (s.store.vars.length : Int), name := name, ty := ty, dimIds := ids }] }
      ids hdims
    refine ⟨{ id := (s.store.vars.length : Int), name := name, ty := ty, dimensions := ds },
      { s with
        mode := .data
        store := { s.store with
          vars := s.store.vars ++
            [{ id := (s.store.vars.length : Int), name := name, ty := ty, dimIds := ids }] }
        vars := mapInsert name
          { id := (s.store.vars.length : Int), name := name, ty := ty, dimensions := ds }
          s.vars },
      ?_, rfl, mapFind_insert_self _ _ _, rfl, rfl, rfl, rfl⟩
    simp [add_variable, hres, ncDefVar, h0var, Group.sync, handle_error, h0sync, NC_NOERR,
      mkVariable, inqVar, inqVarDimids, hnone, hds]

/-- Claim C5 witness: a group whose catalog and store hold one dimension
`x`; defining a variable over `["x"]` succeeds and registers it, while
defining over the unknown name `["y"]` throws with nothing changed. -/
theorem claim_add_variable_witness :
    (∃ s', add_variable
        ⟨.data, ⟨[⟨0, "x", 3, false⟩], [], [], 0⟩, [("x", ⟨0, 3, false, "x"⟩)], [], 0, 0, 0⟩
        "v" ["y"] tyInt = .err .undefinedDimension s' ∧
      s'.vars = [] ∧ s'.store = ⟨[⟨0, "x", 3, false⟩], [], [], 0⟩ ∧
      s'.dimensions = [("x", ⟨0, 3, false, "x"⟩)]) ∧
    (∃ var s', add_variable
        ⟨.data, ⟨[⟨0, "x", 3, false⟩], [], [], 0⟩, [("x", ⟨0, 3, false, "x"⟩)], [], 0, 0, 0⟩
        "v" ["x"] tyInt = .ok var s' ∧
      s'.store.vars = [⟨0, "v", tyInt, [0]⟩] ∧
      mapFind "v" s'.vars = some var ∧
      var.id = 0 ∧ var.name = "v" ∧ var.ty = tyInt ∧
      s'.dimensions = [("x", ⟨0, 3, false, "x"⟩)]) :=
  ⟨(claim_add_variable
      ⟨.data, ⟨[⟨0, "x", 3, false⟩], [], [], 0⟩, [("x", ⟨0, 3, false, "x"⟩)], [], 0, 0, 0⟩
      "v" ["y"] tyInt).1 (by decide),
   (claim_add_variable
      ⟨.data, ⟨[⟨0, "x", 3, false⟩], [], [], 0⟩, [("x", ⟨0, 3, false, "x"⟩)], [], 0, 0, 0⟩
      "v" ["x"] tyInt).2 [0] rfl rfl rfl (by decide) (by decide)⟩

end Netcdfhpp
